import Mathlib

/-!
# Verification of the Oasis sandbox runtime preludes

This file is a shallow embedding, in Lean 4, of the two Python prelude modules of
the Oasis repository:

* `src/code/prelude.py` — the *pipe variant*: a tool-invocation client speaking
  newline-delimited JSON over stdin/stdout, plus a confinement-guard layer that
  monkey-patches `open`, `shutil.rmtree`, `os.remove`, `os.rmdir`, `os.system`
  and the `subprocess` module.
* `src/cmd/sandbox/prelude.py` — the *HTTP variant*: a tool-invocation client
  speaking JSON over an HTTP callback URL, with thread-per-call parallel
  dispatch and a result sink.

Python exceptions are modelled with `Except String`: a guard or client that
raises `PermissionError`/`RuntimeError` is embedded as a function returning
`.error msg`, and returning `.error` means the underlying operation (file I/O,
process spawn) is never performed.  Filesystem paths are modelled as `String`s
over a POSIX, symlink-free filesystem, so `os.path.realpath` is lexical
normalisation; `os.sep` is `"/"`.  JSON values are modelled by `PyVal`, and
`json.loads` by an arbitrary partial parse function `String → Option PyVal`
(`none` = `JSONDecodeError`), since the claims never depend on the concrete
grammar of JSON.
-/

namespace Oasis

/-! ## Character-level string helpers

Python string primitives (`str.startswith`, `str.endswith`, splitting on a
separator) embedded as structurally recursive functions over `String.data`,
so that every definition below evaluates inside the kernel. -/

/-- Python `s.startswith(pre)`. -/
def strStartsWith (s pre : String) : Bool :=
  pre.data.isPrefixOf s.data

/-- Python `s.endswith(post)`. -/
def strEndsWith (s post : String) : Bool :=
  post.data.reverse.isPrefixOf s.data.reverse

/-- Split a character list at every occurrence of `sep`; `acc` holds the
current component in reverse. -/
def splitCharAux (sep : Char) : List Char → List Char → List String
  | [], acc => [String.mk acc.reverse]
  | c :: cs, acc =>
    if c == sep then String.mk acc.reverse :: splitCharAux sep cs []
    else splitCharAux sep cs (c :: acc)

/-- Split a string at every occurrence of the character `sep`
(Python `s.split(sep)`). -/
def splitChar (sep : Char) (s : String) : List String :=
  splitCharAux sep s.data []

/-- Join path components with `"/"`. -/
def joinComps : List String → String
  | [] => ""
  | [c] => c
  | c :: cs => c ++ "/" ++ joinComps cs

/-! ## POSIX path model -/

/-- Python `os.path.join(a, b)` (POSIX, two arguments): an absolute `b`
discards `a`; otherwise `b` is appended to `a` with a separator inserted
unless `a` is empty or already ends in one. -/
def osPathJoin (a b : String) : String :=
  if strStartsWith b "/" then b
  else if strEndsWith a "/" || a == "" then a ++ b
  else a ++ "/" ++ b

/-- One step of lexical `..`-resolution: `..` removes the last resolved
component (at the root it stays at the root), anything else is appended.
(`.` and empty components are filtered out before the fold.) -/
def resolveStep (acc : List String) (c : String) : List String :=
  if c == ".." then acc.dropLast else acc ++ [c]

/-- Python `os.path.realpath(p)` over a symlink-free POSIX filesystem with
current working directory `cwd` (an absolute path): a relative `p` is made
absolute against `cwd`, then the path is normalised lexically (`//`, `.`,
`..`). -/
def realpath (cwd p : String) : String :=
  let full := if strStartsWith p "/" then p else osPathJoin cwd p
  let comps := (splitChar '/' full).filter (fun c => !(c == "") && !(c == "."))
  "/" ++ joinComps (comps.foldl resolveStep [])

/-! ## Confinement guards (`src/code/prelude.py`, lines 80–138)

`ws` is `_workspace` (absolute, realpath-resolved at startup), `cwd` the
process working directory.  `.error msg` models raising
`PermissionError(msg)` — a ConfinementViolation — before the wrapped
operation runs; `.ok resolved` models invoking the underlying primitive on
the resolved path. -/

/-- `_safe_open` (lines 87–94) for string paths: join the argument to the
workspace root, resolve, and deny unless the result is the root or lies
strictly under it.  (The integer file-descriptor bypass on line 89–90 is not
path-based and is outside this model.) -/
def safeOpen (ws cwd p : String) : Except String String :=
  let resolved := realpath cwd (osPathJoin ws p)
  if !(strStartsWith resolved (ws ++ "/")) && resolved != ws then
    .error ("access denied: " ++ p ++ " is outside workspace (" ++ ws ++ ")")
  else
    .ok resolved

/-- `_safe_rmtree` (lines 101–107): note the path is resolved *directly*
(`os.path.realpath(str(path))`), without being joined to the workspace
root first. -/
def safeRmtree (ws cwd p : String) : Except String String :=
  let resolved := realpath cwd p
  if !(strStartsWith resolved (ws ++ "/")) then
    .error ("cannot delete outside workspace: " ++ p)
  else if resolved == ws then
    .error "cannot delete workspace root"
  else
    .ok resolved

/-- `_safe_remove` (lines 115–119): the argument is joined to the workspace
root before resolution. -/
def safeRemove (ws cwd p : String) : Except String String :=
  let resolved := realpath cwd (osPathJoin ws p)
  if !(strStartsWith resolved (ws ++ "/")) then
    .error ("cannot delete outside workspace: " ++ p)
  else
    .ok resolved

/-- `_safe_rmdir` (lines 120–124): identical guard to `_safe_remove`. -/
def safeRmdir (ws cwd p : String) : Except String String :=
  let resolved := realpath cwd (osPathJoin ws p)
  if !(strStartsWith resolved (ws ++ "/")) then
    .error ("cannot delete outside workspace: " ++ p)
  else
    .ok resolved

/-- The spec's workspace-membership predicate (§3, invariant 3): a resolved
path is inside the workspace iff it equals `WorkspaceRoot` or starts with
`WorkspaceRoot` followed by a path separator.  Stated from the spec's words,
to be compared with the guards above. -/
def insideWorkspace (ws resolved : String) : Bool :=
  resolved == ws || strStartsWith resolved (ws ++ "/")

/-! ## Spawn guards (`src/code/prelude.py`, lines 128–138)

`os.system` and every entry point of the stubbed `subprocess` module are
replaced by lambdas that raise `PermissionError` unconditionally.  `.ok`
would model a performed spawn; these functions never produce it. -/

/-- Replacement for `os.system` (lines 129–130). -/
def osSystem (_cmd : String) : Except String Unit :=
  .error "os.system is blocked — use call_tool() instead"

/-- Replacement for `subprocess.run` (line 133). -/
def subprocessRun (_argv : List String) : Except String Unit :=
  .error "subprocess is blocked — use call_tool() instead"

/-- Replacement for `subprocess.Popen` (line 134). -/
def subprocessPopen (_argv : List String) : Except String Unit :=
  .error "subprocess is blocked — use call_tool() instead"

/-- Replacement for `subprocess.call` (line 135). -/
def subprocessCall (_argv : List String) : Except String Unit :=
  .error "subprocess is blocked — use call_tool() instead"

/-- Replacement for `subprocess.check_output` (line 136). -/
def subprocessCheckOutput (_argv : List String) : Except String Unit :=
  .error "subprocess is blocked — use call_tool() instead"

/-- Replacement for `subprocess.check_call` (line 137). -/
def subprocessCheckCall (_argv : List String) : Except String Unit :=
  .error "subprocess is blocked — use call_tool() instead"

/-- A process-spawn or shell-execute attempt reachable from user code
through the Python runtime's `os` and `subprocess` entry points.  The
first six are the entry points the prelude patches; the remaining four are
spawn primitives of the same runtime that the installation never
touches. -/
inductive SpawnCall where
  | system (cmd : String)
  | run (argv : List String)
  | popen (argv : List String)
  | call (argv : List String)
  | checkOutput (argv : List String)
  | checkCall (argv : List String)
  | posixSpawn (path : String) (argv : List String)
  | fork
  | execv (path : String) (argv : List String)
  | spawnv (path : String) (argv : List String)

/-- The observable outcome of a spawn attempt: denied by a guard raising
`PermissionError` (no process is created), or actually performed by the
runtime primitive. -/
inductive SpawnOutcome where
  | denied (msg : String)
  | spawned

/-- The guard installation surface after `src/code/prelude.py` lines
128–138 ran: `os.system` and the five functions of the stub `subprocess`
module route through the guards above (which always deny); `os.posix_spawn`,
`os.fork`, `os.execv` and `os.spawnv` are runtime primitives the
installation does not replace, so an attempt through them invokes the real
primitive and performs a spawn. -/
def spawnAttempt : SpawnCall → SpawnOutcome
  | .system cmd =>
    match osSystem cmd with
    | .error e => .denied e
    | .ok _ => .spawned
  | .run argv =>
    match subprocessRun argv with
    | .error e => .denied e
    | .ok _ => .spawned
  | .popen argv =>
    match subprocessPopen argv with
    | .error e => .denied e
    | .ok _ => .spawned
  | .call argv =>
    match subprocessCall argv with
    | .error e => .denied e
    | .ok _ => .spawned
  | .checkOutput argv =>
    match subprocessCheckOutput argv with
    | .error e => .denied e
    | .ok _ => .spawned
  | .checkCall argv =>
    match subprocessCheckCall argv with
    | .error e => .denied e
    | .ok _ => .spawned
  | .posixSpawn _ _ => .spawned
  | .fork => .spawned
  | .execv _ _ => .spawned
  | .spawnv _ _ => .spawned

/-! ## JSON value model and payload decoding -/

/-- Python/JSON values as far as the protocol observes them. -/
inductive PyVal where
  | str (s : String)
  | num (n : Int)
  | boolean (b : Bool)
  | null
  | arr (elems : List PyVal)
  | obj (fields : List (String × PyVal))

/-- Python `json.loads` applied to the value stored under `"data"` in the
pipe variant (`src/code/prelude.py` line 33): on a missing key it raises
`KeyError`, on a non-string value `TypeError`, and on a string it parses it
with the ambient JSON parser `parse` (`none` = `JSONDecodeError`).  All
three exceptions are caught by the caller, so they are collapsed to
`none`. -/
def jsonLoadsCaught (parse : String → Option PyVal) : Option PyVal → Option PyVal
  | some (.str s) => parse s
  | some _ => none
  | none => none

/-- The pipe variant's payload decoding (`src/code/prelude.py` lines 32–35):
`try: return json.loads(resp["data"]) except (JSONDecodeError, TypeError,
KeyError): return resp.get("data", "")`.  `d` is the value stored under
`"data"`, or `none` when the key is absent. -/
def decodeDataPipe (parse : String → Option PyVal) (d : Option PyVal) : PyVal :=
  match jsonLoadsCaught parse d with
  | some v => v
  | none => d.getD (.str "")

/-- The HTTP variant's payload decoding (`src/cmd/sandbox/prelude.py` lines
57–61): `data = result.get("data", "")`, then
`return json.loads(data) if isinstance(data, str) and data else data`, with
parse failures falling back to `return data`.  An empty string is falsy in
Python, so it is returned as-is without a parse attempt. -/
def decodeDataHTTP (parse : String → Option PyVal) (d : Option PyVal) : PyVal :=
  match d.getD (.str "") with
  | .str s => if s == "" then .str s else (parse s).getD (.str s)
  | v => v

/-! ## Pipe-variant invocation client (`src/code/prelude.py`, lines 10–67) -/

/-- A parsed response line for a single pipe-variant call: the fields of the
JSON object that `call_tool` can observe.  The wire carries a correlation
`id` field; it is part of the message even though the client never reads
it. -/
structure PipeResp where
  rtype : Option String
  rid : Option String
  error : Option String
  data : Option PyVal

/-- The response-processing half of the pipe variant's `call_tool`
(`src/code/prelude.py` lines 29–35): a `"tool_error"` message raises
`RuntimeError`; anything else has its `"data"` payload decoded.  No field
other than `"type"`, `"error"` and `"data"` is inspected — in particular the
response's correlation id is ignored. -/
def callToolRecv (parse : String → Option PyVal) (name : String)
    (resp : PipeResp) : Except String PyVal :=
  if resp.rtype == some "tool_error" then
    .error ("Tool '" ++ name ++ "' failed: " ++ resp.error.getD "")
  else
    .ok (decodeDataPipe parse resp.data)

/-- One element of the batched pipe response (`resp["results"][k]`). -/
structure BatchEntry where
  error : Option String
  data : Option PyVal

/-- An element of the list returned by the pipe variant's
`call_tools_parallel`: either a decoded payload or a `RuntimeError` *value*
placed into the list (`src/code/prelude.py` line 61 appends the exception
object instead of raising it). -/
inductive PipeItem where
  | err (msg : String)
  | val (v : PyVal)

/-- Decoding of one entry of `resp["results"]` in the pipe variant's
`call_tools_parallel` (`src/code/prelude.py` lines 60–66): a truthy
`"error"` field becomes a `RuntimeError` *value* appended to the results
list; otherwise the payload is decoded like a single call's. -/
def decodeBatchEntry (parse : String → Option PyVal) (r : BatchEntry) : PipeItem :=
  match r.error with
  | some e => if e == "" then .val (decodeDataPipe parse r.data)
              else .err ("Tool failed: " ++ e)
  | none => .val (decodeDataPipe parse r.data)

/-- The loop over `resp["results"]` (`src/code/prelude.py` lines 58–67):
element-wise decoding, in order; the function returns the list normally even
when it contains error values. -/
def callToolsParallelPipe (parse : String → Option PyVal)
    (entries : List BatchEntry) : List PipeItem :=
  entries.map (decodeBatchEntry parse)

/-! ## HTTP-variant invocation client (`src/cmd/sandbox/prelude.py`) -/

/-- A parsed HTTP response body (`src/cmd/sandbox/prelude.py` line 53). -/
structure HttpResp where
  error : Option String
  data : Option PyVal

/-- The response-processing half of the HTTP variant's `call_tool`
(`src/cmd/sandbox/prelude.py` lines 53–61): a truthy `"error"` field raises
`RuntimeError`; otherwise the `"data"` payload is decoded. -/
def callToolHTTPRecv (parse : String → Option PyVal) (name : String)
    (r : HttpResp) : Except String PyVal :=
  match r.error with
  | some e => if e == "" then .ok (decodeDataHTTP parse r.data)
              else .error ("Tool '" ++ name ++ "' failed: " ++ e)
  | none => .ok (decodeDataHTTP parse r.data)

/-! ## HTTP-variant parallel dispatch (`src/cmd/sandbox/prelude.py`, lines 64–100)

`call_tools_parallel` starts one thread per call; worker `i` runs
`call_tool` and stores its outcome in slot `i` of a pre-sized `results` or
`errors` array; the main thread joins every thread, then scans `errors` in
index order and re-raises the first one found, else returns `results`.

The embedding makes the scheduler explicit: `outcome i` is the terminal
outcome of unit `i`'s own transport round trip, and `order` is the sequence
in which the scheduler lets the workers write back (an arbitrary
permutation of `0..n-1`).  Each processed worker also sets a `completed`
flag, the test double of the spec's "records completed" observation. -/

/-- The mutable state shared by the workers: the `results` and `errors`
arrays (slot `i` written only by worker `i`) and the per-unit terminal
flags. -/
structure ParState (α : Type) where
  results : List (Option α)
  errors : List (Option String)
  completed : List Bool

/-- The write-back of worker `i` (`_worker`, lines 81–85): a successful
`call_tool` stores into `results[i]`, an exception into `errors[i]`; either
way the unit has reached a terminal state. -/
def stepFn {α : Type} (outcome : Nat → Except String α) (st : ParState α)
    (i : Nat) : ParState α :=
  match outcome i with
  | .ok v => { st with results := st.results.set i (some v),
                       completed := st.completed.set i true }
  | .error e => { st with errors := st.errors.set i (some e),
                          completed := st.completed.set i true }

/-- Run the workers in scheduler order `order` over the initial pre-sized
state (`results = [None] * len(calls)`, `errors = [None] * len(calls)`). -/
def fillRun {α : Type} (outcome : Nat → Except String α) (n : Nat)
    (order : List Nat) : ParState α :=
  order.foldl (stepFn outcome)
    ⟨List.replicate n none, List.replicate n none, List.replicate n false⟩

/-- The HTTP variant's `call_tools_parallel` after the join of all `n`
threads: scan the `errors` array in index order, re-raise the first error
found, otherwise return the `results` array. -/
def callToolsParallelHTTP {α : Type} (outcome : Nat → Except String α)
    (n : Nat) (order : List Nat) : Except String (List (Option α)) :=
  match (fillRun outcome n order).errors.findSome? id with
  | some e => .error e
  | none => .ok (fillRun outcome n order).results

/-- The error slot a unit outcome produces. -/
def errPart {α : Type} : Except String α → Option String
  | .ok _ => none
  | .error e => some e

/-- The result slot a unit outcome produces. -/
def okPart {α : Type} : Except String α → Option α
  | .ok v => some v
  | .error _ => none

/-! ## Result sink (`src/cmd/sandbox/prelude.py`, lines 12–13 and 103–120) -/

/-- The module-level sink state: `_final_result = None`,
`_output_files = []`. -/
structure SinkState where
  finalResult : Option PyVal
  outputFiles : List String

/-- The sink state at interpreter startup. -/
def initSink : SinkState := ⟨none, []⟩

/-- `set_result(data, files=None)` (lines 103–120): always overwrite
`_final_result`; overwrite `_output_files` only when `files is not None`. -/
def setResult (st : SinkState) (data : PyVal) (files : Option (List String)) :
    SinkState :=
  { finalResult := some data,
    outputFiles := match files with
                   | some fs => fs
                   | none => st.outputFiles }

/-- Run a sequence of `set_result(data, files)` calls from a given state. -/
def runSetResults (st : SinkState) (calls : List (PyVal × Option (List String))) :
    SinkState :=
  calls.foldl (fun s c => setResult s c.1 c.2) st

/-! ## Correlation-id counter (`src/code/prelude.py`, lines 10, 20–22, 46–50)

The pipe variant keeps one module-level counter `_call_id`, incremented
before each id is issued; `call_tool` issues one id per call and
`call_tools_parallel` issues one per batched call, both from the same
counter, rendering the id as the string `f"tc_{_call_id}"`. -/

/-- Decimal digits of `n`, little-endian, via structural recursion on a
fuel bound (so the definition evaluates in the kernel); agrees with
`Nat.digits 10` whenever `n ≤ fuel`. -/
def decDigitsAux : Nat → Nat → List Nat
  | 0, _ => []
  | _ + 1, 0 => []
  | fuel + 1, n + 1 => ((n + 1) % 10) :: decDigitsAux fuel ((n + 1) / 10)

/-- Decimal digits of `n`, little-endian. -/
def decDigits (n : Nat) : List Nat := decDigitsAux n n

/-- The character for one decimal digit. -/
def digitToChar (d : Nat) : Char := Char.ofNat (48 + d)

/-- Python's decimal rendering of a natural number, as produced by the
f-string `f"tc_{_call_id}"` for the counter values (which are always
positive). -/
def natDecStr (n : Nat) : String :=
  if n == 0 then "0" else String.mk ((decDigits n).reverse.map digitToChar)

/-- The correlation id issued for counter value `n`: `f"tc_{n}"`. -/
def tcId (n : Nat) : String := "tc_" ++ natDecStr n

/-- One client operation of a script execution, as seen by the counter: a
single `call_tool`, or a `call_tools_parallel` over a batch of `k` calls. -/
inductive ClientOp where
  | single
  | batch (k : Nat)

/-- The counter values consumed by one operation starting from counter
state `c` (the counter is incremented before each id is issued), paired
with the final counter state. -/
def opIds (c : Nat) : ClientOp → List Nat × Nat
  | .single => ([c + 1], c + 1)
  | .batch k => ((List.range k).map (fun j => c + 1 + j), c + k)

/-- All counter values issued over a whole script execution, in issue
order. -/
def issuedNums (c : Nat) : List ClientOp → List Nat
  | [] => []
  | op :: rest =>
    let (ids, next) := opIds c op
    ids ++ issuedNums next rest

/-- All correlation-id strings issued over a whole script execution, in
issue order; the counter starts at `0` (`_call_id = 0`, line 10). -/
def issuedIds (ops : List ClientOp) : List String :=
  (issuedNums 0 ops).map tcId

/-- The request-building half of the pipe variant's `call_tool`
(`src/code/prelude.py` lines 20–23): increment the shared counter, render
the correlation id, and emit the request message fields; the remainder of
the call is `callToolRecv` applied to the next response line. -/
def callToolSend (c : Nat) (name : String) : Nat × String × String :=
  (c + 1, tcId (c + 1), name)

/-- A test-double JSON parser that always fails; used to instantiate
theorems whose only requirement on the parser is `parse "" = none`. -/
def parseNone : String → Option PyVal := fun _ => none

/-! # Theorems -/

/-! ## Helper lemmas for the path guards -/

/-- Joining any path to the workspace root `"/ws"` yields an absolute
path. -/
theorem osPathJoin_ws_absolute (b : String) :
    strStartsWith (osPathJoin "/ws" b) "/" = true := by
  unfold osPathJoin
  by_cases h : strStartsWith b "/" = true
  · simp [h]
  · simp [h]
    rfl

/-- Resolving an absolute path does not depend on the current working
directory. -/
theorem realpath_absolute_cwd (cwd cwd' p : String)
    (h : strStartsWith p "/" = true) : realpath cwd p = realpath cwd' p := by
  unfold realpath
  simp [h]

/-! ## C2 — the open guard -/

/-- C2: the open guard joins non-absolute paths to the workspace root,
fully resolves the result, and admits exactly the paths whose resolved form
is the root or starts with the root followed by a separator (the spec's
`insideWorkspace` predicate); paths outside fail with a
ConfinementViolation (`.error`, performed before any underlying I/O).  With
root `/ws`: `/ws/a.txt`, `a.txt` and `/ws/../ws/a.txt` are permitted, while
`/etc/passwd` and `../outside.txt` are denied — under every working
directory. -/
theorem safeOpen_confines (cwd : String) :
    (∀ ws p, (safeOpen ws cwd p).isOk = true ↔
        insideWorkspace ws (realpath cwd (osPathJoin ws p)) = true) ∧
    safeOpen "/ws" cwd "/ws/a.txt" = .ok "/ws/a.txt" ∧
    safeOpen "/ws" cwd "a.txt" = .ok "/ws/a.txt" ∧
    safeOpen "/ws" cwd "/ws/../ws/a.txt" = .ok "/ws/a.txt" ∧
    safeOpen "/ws" cwd "/etc/passwd"
      = .error "access denied: /etc/passwd is outside workspace (/ws)" ∧
    safeOpen "/ws" cwd "../outside.txt"
      = .error "access denied: ../outside.txt is outside workspace (/ws)" := by
  refine ⟨fun ws p => ?_, rfl, rfl, rfl, rfl, rfl⟩
  unfold safeOpen insideWorkspace
  set r := realpath cwd (osPathJoin ws p) with hr
  by_cases h1 : strStartsWith r (ws ++ "/") = true
  · simp [h1, Except.isOk, Except.toBool]
  · by_cases h2 : r = ws
    · simp [h1, h2, Except.isOk, Except.toBool]
    · simp [h1, h2, Except.isOk, Except.toBool]

/-! ## C3 — spawn denial -/

/-- C3: the claim says every process-spawn or shell-execute attempt by user
code, with any arguments whatsoever, fails with a ConfinementViolation and
performs no spawn.  The guard installation replaces only `os.system` and
the five `subprocess` functions — those are denied for all arguments — but
`os.posix_spawn`, `os.fork`, `os.execv` and `os.spawnv` are left untouched,
so a spawn attempt through any of them performs a real spawn and raises
nothing: the code falls short of the spec's unconditional denial. -/
theorem posix_spawn_not_guarded :
    spawnAttempt (.posixSpawn "/bin/sh" ["sh", "-c", "id"]) = .spawned ∧
    spawnAttempt .fork = .spawned ∧
    spawnAttempt (.execv "/bin/sh" ["sh"]) = .spawned ∧
    spawnAttempt (.spawnv "/bin/sh" ["sh"]) = .spawned ∧
    (∀ cmd, spawnAttempt (.system cmd)
        = .denied "os.system is blocked — use call_tool() instead") ∧
    (∀ argv, spawnAttempt (.run argv)
        = .denied "subprocess is blocked — use call_tool() instead") ∧
    (∀ argv, spawnAttempt (.popen argv)
        = .denied "subprocess is blocked — use call_tool() instead") ∧
    (∀ argv, spawnAttempt (.call argv)
        = .denied "subprocess is blocked — use call_tool() instead") ∧
    (∀ argv, spawnAttempt (.checkOutput argv)
        = .denied "subprocess is blocked — use call_tool() instead") ∧
    (∀ argv, spawnAttempt (.checkCall argv)
        = .denied "subprocess is blocked — use call_tool() instead") :=
  ⟨rfl, rfl, rfl, rfl, fun _ => rfl, fun _ => rfl, fun _ => rfl, fun _ => rfl,
   fun _ => rfl, fun _ => rfl⟩

/-! ## C4 — whole-tree removal of the workspace root -/

/-- C4: with workspace root `/ws`, any `rmtree` call whose argument
resolves to the root itself fails with a ConfinementViolation (the
underlying removal never runs), and in particular `rmtree("/ws")` fails
under every working directory, while `rmtree("/ws/sub")` — strictly inside
the workspace — is permitted. -/
theorem rmtree_root_denied :
    (∀ cwd p, realpath cwd p = "/ws" → (safeRmtree "/ws" cwd p).isOk = false) ∧
    (∀ cwd, safeRmtree "/ws" cwd "/ws"
        = .error "cannot delete outside workspace: /ws") ∧
    (∀ cwd, safeRmtree "/ws" cwd "/ws/sub" = .ok "/ws/sub") := by
  refine ⟨?_, fun _ => rfl, fun _ => rfl⟩
  intro cwd p h
  unfold safeRmtree
  simp only [h]
  rfl

/-- Witness for `rmtree_root_denied`: `"/ws"` itself resolves to the root,
and its removal is denied. -/
theorem rmtree_root_denied_witness :
    realpath "/" "/ws" = "/ws" ∧ (safeRmtree "/ws" "/" "/ws").isOk = false :=
  ⟨rfl, rmtree_root_denied.1 "/" "/ws" rfl⟩

/-! ## C5 — path resolution of the delete guards -/

/-- C5 counterexample: the claim says the remove-directory-tree guard joins
non-absolute paths to the workspace root, so that `"sub"` targets
`/ws/sub` regardless of the working directory.  In the code
(`src/code/prelude.py` line 102) `_safe_rmtree` resolves its argument
directly, so `rmtree("sub")` is allowed when the process sits in `/ws` but
denied (resolving to `/other/sub`) when it sits in `/other` — the outcome
depends on the working directory, and the path joined to the root would
have been `/ws/sub`. -/
theorem rmtree_resolution_depends_on_cwd :
    safeRmtree "/ws" "/ws" "sub" = .ok "/ws/sub" ∧
    safeRmtree "/ws" "/other" "sub"
      = .error "cannot delete outside workspace: sub" ∧
    realpath "/other" (osPathJoin "/ws" "sub") = "/ws/sub" ∧
    realpath "/other" "sub" = "/other/sub" :=
  ⟨rfl, rfl, rfl, rfl⟩

/-- C5 amended: the delete (`os.remove`) and remove-directory (`os.rmdir`)
guards join a non-absolute path to the workspace root before resolving, so
`"sub"` targets `/ws/sub` under every working directory; the
remove-directory-tree guard instead resolves its argument against the
current working directory without joining it to the root. -/
theorem delete_guards_resolution :
    (∀ cwd cwd' p, safeRemove "/ws" cwd p = safeRemove "/ws" cwd' p) ∧
    (∀ cwd cwd' p, safeRmdir "/ws" cwd p = safeRmdir "/ws" cwd' p) ∧
    (∀ cwd, safeRemove "/ws" cwd "sub" = .ok "/ws/sub") ∧
    (∀ cwd, safeRmdir "/ws" cwd "sub" = .ok "/ws/sub") ∧
    safeRmtree "/ws" "/outside" "sub"
      = .error "cannot delete outside workspace: sub" := by
  refine ⟨?_, ?_, fun _ => rfl, fun _ => rfl, rfl⟩
  · intro cwd cwd' p
    unfold safeRemove
    rw [realpath_absolute_cwd cwd cwd' _ (osPathJoin_ws_absolute p)]
  · intro cwd cwd' p
    unfold safeRmdir
    rw [realpath_absolute_cwd cwd cwd' _ (osPathJoin_ws_absolute p)]

/-! ## C7 — correlation-id matching -/

/-- C7 counterexample: the claim says a ToolResult whose correlation_id
does not match the outstanding request is treated as a protocol error.  In
the code, `call_tool` issues id `tc_1` for its first request but accepts
the next response line unconditionally: a response carrying the unrelated
id `tc_999` is decoded and returned as the answer (`Except.ok`), not
rejected. -/
theorem unmatched_response_id_accepted :
    callToolSend 0 "file_read" = (1, "tc_1", "file_read") ∧
    callToolRecv parseNone "file_read"
        ⟨some "tool_result", some "tc_999", none, some (.num 7)⟩
      = .ok (.num 7) := ⟨rfl, rfl⟩

/-- C7 amended: the pipe client assigns each outbound request a fresh
correlation id, but does not match responses by correlation id — the
response read next is accepted whatever its id field holds (so unmatched or
duplicate ids are not detected): the decoded outcome is entirely
independent of the response's id. -/
theorem response_id_not_inspected (parse : String → Option PyVal)
    (name : String) (t rid1 rid2 e : Option String) (d : Option PyVal) :
    callToolRecv parse name ⟨t, rid1, e, d⟩
      = callToolRecv parse name ⟨t, rid2, e, d⟩ := rfl

/-! ## C8 — opportunistic JSON re-parsing of textual payloads -/

/-- C8: on every successful single call, in both variants, a string payload
is re-parsed as JSON and the parsed value returned when parsing succeeds,
the raw string returned verbatim when it fails, and a non-string payload is
returned as-is.  (`hp` records that the JSON grammar rejects the empty
string, the one case the HTTP variant short-circuits via Python
truthiness.) -/
theorem payload_reparse (parse : String → Option PyVal)
    (hp : parse "" = none) :
    (∀ s, decodeDataPipe parse (some (.str s)) = (parse s).getD (.str s)) ∧
    (∀ s, decodeDataHTTP parse (some (.str s)) = (parse s).getD (.str s)) ∧
    (∀ v, (∀ s, v ≠ .str s) → decodeDataPipe parse (some v) = v) ∧
    (∀ v, (∀ s, v ≠ .str s) → decodeDataHTTP parse (some v) = v) ∧
    (∀ name resp, (resp.rtype == some "tool_error") = false →
        callToolRecv parse name resp = .ok (decodeDataPipe parse resp.data)) ∧
    (∀ name r, r.error = none →
        callToolHTTPRecv parse name r
          = .ok (decodeDataHTTP parse r.data)) := by
  refine ⟨?_, ?_, ?_, ?_, ?_, ?_⟩
  · intro s
    cases h : parse s <;> simp [decodeDataPipe, jsonLoadsCaught, h]
  · intro s
    by_cases hs : s = ""
    · subst hs
      simp [decodeDataHTTP, hp]
    · cases h : parse s <;> simp [decodeDataHTTP, h, hs]
  · intro v hv
    cases v <;> first
      | rfl
      | exact absurd rfl (hv _)
  · intro v hv
    cases v <;> first
      | rfl
      | exact absurd rfl (hv _)
  · intro name resp h
    unfold callToolRecv
    simp [h]
  · intro name r h
    unfold callToolHTTPRecv
    simp [h]

/-- Witness for `payload_reparse`: the always-failing parser satisfies the
hypothesis, and an unparseable string payload is returned verbatim. -/
theorem payload_reparse_witness :
    parseNone "" = none ∧
    decodeDataPipe parseNone (some (.str "x")) = .str "x" :=
  ⟨rfl, (payload_reparse parseNone rfl).1 "x"⟩

/-! ## C9 — the result sink's files slot -/

/-- `set_result` calls whose `files` argument is `None` never change
`_output_files`. -/
theorem runSetResults_files_none :
    ∀ (calls : List (PyVal × Option (List String))) (st : SinkState),
      (∀ c ∈ calls, c.2 = none) →
      (runSetResults st calls).outputFiles = st.outputFiles
  | [], _, _ => rfl
  | c :: rest, st, h => by
    have hc : c.2 = none := h c (List.mem_cons_self ..)
    have ih := runSetResults_files_none rest (setResult st c.1 c.2)
      (fun x hx => h x (List.mem_cons_of_mem _ hx))
    unfold runSetResults at ih ⊢
    simp only [List.foldl_cons]
    rw [ih]
    simp [setResult, hc]

/-- C9: `set_result(y)` with the files argument omitted (`None`) overwrites
only the stored value and leaves the stored output-files list unchanged;
the list is replaced exactly when a non-`None` files argument is passed;
and it stays the empty list over any call sequence that never passes
files. -/
theorem setResult_files_frame :
    (∀ st y, (setResult st y none).finalResult = some y ∧
             (setResult st y none).outputFiles = st.outputFiles) ∧
    (∀ st y fs, (setResult st y (some fs)).outputFiles = fs) ∧
    initSink.outputFiles = [] ∧
    (∀ calls, (∀ c ∈ calls, c.2 = none) →
        (runSetResults initSink calls).outputFiles = []) :=
  ⟨fun _ _ => ⟨rfl, rfl⟩, fun _ _ _ => rfl, rfl,
   fun calls h => runSetResults_files_none calls initSink h⟩

/-- Witness for `setResult_files_frame`: two value-only `set_result` calls
leave the files list empty. -/
theorem setResult_files_frame_witness :
    (runSetResults initSink
        [(PyVal.num 1, none), (PyVal.num 2, none)]).outputFiles = [] :=
  setResult_files_frame.2.2.2 [(PyVal.num 1, none), (PyVal.num 2, none)]
    (by simp)

/-! ## Helper lemmas for the parallel run -/

/-- The worker fold never changes the sizes of the three arrays. -/
theorem foldl_step_lengths {α : Type} (outcome : Nat → Except String α) :
    ∀ (order : List Nat) (st : ParState α),
      (order.foldl (stepFn outcome) st).results.length = st.results.length ∧
      (order.foldl (stepFn outcome) st).errors.length = st.errors.length ∧
      (order.foldl (stepFn outcome) st).completed.length = st.completed.length
  | [], _ => ⟨rfl, rfl, rfl⟩
  | j :: rest, st => by
    have ih := foldl_step_lengths outcome rest (stepFn outcome st j)
    rw [List.foldl_cons]
    cases ho : outcome j <;>
      simp_all [stepFn, ho, List.length_set]

/-- Workers with indices other than `i` never touch slot `i`. -/
theorem foldl_step_frame {α : Type} (outcome : Nat → Except String α)
    (i : Nat) :
    ∀ (order : List Nat) (st : ParState α), i ∉ order →
      (order.foldl (stepFn outcome) st).results[i]? = st.results[i]? ∧
      (order.foldl (stepFn outcome) st).errors[i]? = st.errors[i]? ∧
      (order.foldl (stepFn outcome) st).completed[i]? = st.completed[i]?
  | [], _, _ => ⟨rfl, rfl, rfl⟩
  | j :: rest, st, h => by
    have hij : j ≠ i := fun e => h (e ▸ List.mem_cons_self ..)
    have hrest : i ∉ rest := fun e => h (List.mem_cons_of_mem _ e)
    have ih := foldl_step_frame outcome i rest (stepFn outcome st j) hrest
    rw [List.foldl_cons]
    cases ho : outcome j <;>
      simp_all [stepFn, ho, List.getElem?_set_ne hij]

/-- After a join of a schedule that runs unit `i` at least once and never
reuses an index, slot `i` of each array holds exactly the contribution of
unit `i`'s terminal outcome. -/
theorem fillRun_slots {α : Type} (outcome : Nat → Except String α) (n : Nat)
    (order : List Nat) (hnd : order.Nodup) (i : Nat) (hi : i < n)
    (hmem : i ∈ order) :
    (fillRun outcome n order).results[i]? = some (okPart (outcome i)) ∧
    (fillRun outcome n order).errors[i]? = some (errPart (outcome i)) ∧
    (fillRun outcome n order).completed[i]? = some true := by
  obtain ⟨s, t, rfl⟩ := List.append_of_mem hmem
  rw [List.nodup_append] at hnd
  have hs : i ∉ s := fun hin => hnd.2.2 hin (List.mem_cons_self ..)
  have ht : i ∉ t := ((List.nodup_cons.mp hnd.2.1).1)
  unfold fillRun
  rw [List.foldl_append, List.foldl_cons]
  set init : ParState α :=
    ⟨List.replicate n none, List.replicate n none, List.replicate n false⟩
    with hinit
  set st1 := s.foldl (stepFn outcome) init with hst1
  have hframe1 := foldl_step_frame outcome i s init hs
  have hlen := foldl_step_lengths outcome s init
  have h1r : st1.results[i]? = some none := by
    rw [hst1, hframe1.1, hinit]
    simp [List.getElem?_replicate, hi]
  have h1e : st1.errors[i]? = some none := by
    rw [hst1, hframe1.2.1, hinit]
    simp [List.getElem?_replicate, hi]
  have h1c : st1.completed[i]? = some false := by
    rw [hst1, hframe1.2.2, hinit]
    simp [List.getElem?_replicate, hi]
  have hlr : i < st1.results.length := by
    rw [hst1, hlen.1, hinit]
    simpa using hi
  have hle : i < st1.errors.length := by
    rw [hst1, hlen.2.1, hinit]
    simpa using hi
  have hlc : i < st1.completed.length := by
    rw [hst1, hlen.2.2, hinit]
    simpa using hi
  have hstep :
      (stepFn outcome st1 i).results[i]? = some (okPart (outcome i)) ∧
      (stepFn outcome st1 i).errors[i]? = some (errPart (outcome i)) ∧
      (stepFn outcome st1 i).completed[i]? = some true := by
    cases ho : outcome i <;>
      simp_all [stepFn, ho, okPart, errPart, List.getElem?_set_self]
  have hframe2 := foldl_step_frame outcome i t (stepFn outcome st1 i) ht
  exact ⟨hframe2.1.trans hstep.1, hframe2.2.1.trans hstep.2.1,
         hframe2.2.2.trans hstep.2.2⟩

/-- Closed form of the `errors` array after the join: the error slots of the
unit outcomes, in input order. -/
theorem fillRun_errors_eq {α : Type} (outcome : Nat → Except String α)
    (n : Nat) (order : List Nat) (ho : ∀ i, i ∈ order ↔ i < n)
    (hnd : order.Nodup) :
    (fillRun outcome n order).errors
      = (List.range n).map (fun i => errPart (outcome i)) := by
  apply List.ext_getElem?
  intro j
  by_cases hj : j < n
  · rw [(fillRun_slots outcome n order hnd j hj ((ho j).mpr hj)).2.1,
        List.getElem?_map, List.getElem?_range hj]
    rfl
  · have hlen : (fillRun outcome n order).errors.length = n := by
      unfold fillRun
      rw [(foldl_step_lengths outcome order _).2.1]
      simp
    rw [List.getElem?_eq_none (by omega), List.getElem?_eq_none (by simp; omega)]

/-- Closed form of the `results` array after the join: the result slots of
the unit outcomes, in input order. -/
theorem fillRun_results_eq {α : Type} (outcome : Nat → Except String α)
    (n : Nat) (order : List Nat) (ho : ∀ i, i ∈ order ↔ i < n)
    (hnd : order.Nodup) :
    (fillRun outcome n order).results
      = (List.range n).map (fun i => okPart (outcome i)) := by
  apply List.ext_getElem?
  intro j
  by_cases hj : j < n
  · rw [(fillRun_slots outcome n order hnd j hj ((ho j).mpr hj)).1,
        List.getElem?_map, List.getElem?_range hj]
    rfl
  · have hlen : (fillRun outcome n order).results.length = n := by
      unfold fillRun
      rw [(foldl_step_lengths outcome order _).1]
      simp
    rw [List.getElem?_eq_none (by omega), List.getElem?_eq_none (by simp; omega)]

/-- Every dispatched unit has reached a terminal state by the time the join
finishes. -/
theorem fillRun_completed_eq {α : Type} (outcome : Nat → Except String α)
    (n : Nat) (order : List Nat) (ho : ∀ i, i ∈ order ↔ i < n)
    (hnd : order.Nodup) :
    (fillRun outcome n order).completed = List.replicate n true := by
  apply List.ext_getElem?
  intro j
  by_cases hj : j < n
  · rw [(fillRun_slots outcome n order hnd j hj ((ho j).mpr hj)).2.2,
        List.getElem?_replicate]
    simp [hj]
  · have hlen : (fillRun outcome n order).completed.length = n := by
      unfold fillRun
      rw [(foldl_step_lengths outcome order _).2.2]
      simp
    rw [List.getElem?_eq_none (by omega), List.getElem?_eq_none (by simp; omega)]

/-- Scanning `range' s cnt` finds the value at the first index whose image
is not `none`. -/
theorem findSome?_range'_first {β : Type} (f : Nat → Option β) :
    ∀ (cnt s i0 : Nat), s ≤ i0 → i0 < s + cnt →
      (∀ j, s ≤ j → j < i0 → f j = none) → (f i0).isSome = true →
      (List.range' s cnt).findSome? f = f i0
  | 0, s, i0, hle, hlt, _, _ => by omega
  | cnt + 1, s, i0, hle, hlt, hnone, hsome => by
    rw [List.range'_succ]
    by_cases hsi : s = i0
    · subst hsi
      cases hfs : f s with
      | some b => simp [List.findSome?_cons, hfs]
      | none => rw [hfs] at hsome; simp at hsome
    · have hfs : f s = none := hnone s le_rfl (by omega)
      rw [List.findSome?_cons, hfs]
      exact findSome?_range'_first f cnt (s + 1) i0 (by omega) (by omega)
        (fun j hj1 hj2 => hnone j (by omega) hj2) hsome

/-! ## C1 — error propagation of parallel dispatch -/

/-- C1 counterexample: the claim covers both `call_tools_parallel`
implementations, but the pipe variant does not raise when a unit fails —
it places a `RuntimeError` *value* in the returned results list
(`src/code/prelude.py` line 61) and returns the list normally: with a batch
of two calls whose first entry carries `"error": "boom"`, the call returns
a two-element list whose first element is an error value. -/
theorem pipe_parallel_returns_error_values :
    callToolsParallelPipe parseNone
        [⟨some "boom", none⟩, ⟨none, some (.str "fine")⟩]
      = [.err "Tool failed: boom", .val (.str "fine")] := rfl

/-- C1 amended: in the HTTP (thread-per-call) variant, whenever at least
one unit fails, `call_tools_parallel` raises the error of the failing unit
that is earliest in input order — never returning a results list — and it
does so only after every dispatched unit has reached a terminal state
(every `completed` flag is set when the join finishes); the pipe variant
instead returns per-unit failures as error values inside the results list
without raising.  `order` is the arbitrary order in which the scheduler
completes the units, `outcome i` unit `i`'s own terminal transport
outcome. -/
theorem parallel_first_error_after_join {α : Type}
    (outcome : Nat → Except String α) (n : Nat) (order : List Nat)
    (ho : ∀ i, i ∈ order ↔ i < n) (hnd : order.Nodup)
    (i0 : Nat) (e0 : String) (hi0 : i0 < n) (hfail : outcome i0 = .error e0)
    (hfirst : ∀ j, j < i0 → errPart (outcome j) = none) :
    callToolsParallelHTTP outcome n order = .error e0 ∧
    (fillRun outcome n order).completed = List.replicate n true := by
  refine ⟨?_, fillRun_completed_eq outcome n order ho hnd⟩
  unfold callToolsParallelHTTP
  rw [fillRun_errors_eq outcome n order ho hnd]
  rw [List.findSome?_map, List.range_eq_range']
  simp only [Function.comp_def, id_eq]
  rw [findSome?_range'_first (fun i => errPart (outcome i)) n 0 i0
        (by omega) (by omega) (fun j _ hj => hfirst j hj)
        (by show (errPart (outcome i0)).isSome = true
            rw [hfail]
            rfl)]
  rw [hfail]
  rfl

/-- Witness for `parallel_first_error_after_join`: two units, the first
fails with "boom", the scheduler completes them in reverse order; the call
raises "boom" and both units are recorded as completed. -/
theorem parallel_first_error_after_join_witness :
    callToolsParallelHTTP
        (fun i => if i == 0 then Except.error "boom" else Except.ok 10)
        2 [1, 0]
      = .error "boom" ∧
    (fillRun (fun i => if i == 0 then Except.error "boom" else Except.ok 10)
        2 [1, 0]).completed = List.replicate 2 true :=
  parallel_first_error_after_join
    (fun i => if i == 0 then Except.error "boom" else Except.ok 10) 2 [1, 0]
    (fun i => by
      simp only [List.mem_cons, List.not_mem_nil, or_false]
      omega)
    (by decide) 0 "boom" (by omega) rfl
    (fun j hj => absurd hj (by omega))

/-! ## C6 — ordered results of parallel dispatch -/

/-- C6: when every unit succeeds, `call_tools_parallel` returns the units'
results in exactly the caller's input order (`results[i]` is unit `i`'s
payload), for every scheduler completion order; in the pipe variant, the
`k`-th element of the returned list is the decoding of the `k`-th entry of
the batch response, which the protocol aligns with the `k`-th request. -/
theorem parallel_results_input_order {α : Type}
    (outcome : Nat → Except String α) (n : Nat) (order : List Nat)
    (ho : ∀ i, i ∈ order ↔ i < n) (hnd : order.Nodup)
    (hok : ∀ i, i < n → errPart (outcome i) = none) :
    callToolsParallelHTTP outcome n order
      = .ok ((List.range n).map (fun i => okPart (outcome i))) ∧
    (∀ (parse : String → Option PyVal) (entries : List BatchEntry) (k : Nat),
        (callToolsParallelPipe parse entries)[k]?
          = (entries[k]?).map (decodeBatchEntry parse)) := by
  constructor
  · unfold callToolsParallelHTTP
    rw [fillRun_errors_eq outcome n order ho hnd,
        fillRun_results_eq outcome n order ho hnd]
    have hnone : ((List.range n).map
        (fun i => errPart (outcome i))).findSome? id = none := by
      rw [List.findSome?_eq_none_iff]
      intro x hx
      obtain ⟨i, hi, rfl⟩ := List.mem_map.mp hx
      exact hok i (List.mem_range.mp hi)
    rw [hnone]
  · intro parse entries k
    unfold callToolsParallelPipe
    rw [List.getElem?_map]

/-- Witness for `parallel_results_input_order`: three successful units
completed by the scheduler in the order 2, 0, 1 still yield the results in
input order 0, 1, 2. -/
theorem parallel_results_input_order_witness :
    callToolsParallelHTTP (fun i => Except.ok (i * 10)) 3 [2, 0, 1]
      = .ok [some 0, some 10, some 20] ∧
    (∀ (parse : String → Option PyVal) (entries : List BatchEntry) (k : Nat),
        (callToolsParallelPipe parse entries)[k]?
          = (entries[k]?).map (decodeBatchEntry parse)) :=
  parallel_results_input_order (fun i => Except.ok (i * 10)) 3 [2, 0, 1]
    (fun i => by
      simp only [List.mem_cons, List.not_mem_nil, or_false]
      omega)
    (by decide) (fun _ _ => rfl)

/-! ## C10 — uniqueness of correlation ids across a script execution -/

/-- `decDigitsAux` computes `Nat.digits 10` whenever the fuel bound is
respected. -/
theorem decDigitsAux_eq_digits :
    ∀ (fuel n : Nat), n ≤ fuel → decDigitsAux fuel n = Nat.digits 10 n
  | 0, 0, _ => by simp [decDigitsAux]
  | 0, _ + 1, h => by omega
  | _ + 1, 0, _ => by simp [decDigitsAux]
  | fuel + 1, n + 1, h => by
    have hdiv : (n + 1) / 10 ≤ fuel := by
      have := Nat.div_lt_self (Nat.succ_pos n) (by norm_num : 1 < 10)
      omega
    rw [show decDigitsAux (fuel + 1) (n + 1)
          = ((n + 1) % 10) :: decDigitsAux fuel ((n + 1) / 10) from rfl,
        decDigitsAux_eq_digits fuel ((n + 1) / 10) hdiv,
        Nat.digits_def' (by norm_num : 1 < 10) (Nat.succ_pos n)]

/-- `decDigits` agrees with `Nat.digits 10`. -/
theorem decDigits_eq_digits (n : Nat) : decDigits n = Nat.digits 10 n :=
  decDigitsAux_eq_digits n n le_rfl

/-- Decimal digit characters are pairwise distinct. -/
theorem digitToChar_inj :
    ∀ a, a < 10 → ∀ b, b < 10 → digitToChar a = digitToChar b → a = b := by
  decide

/-- Rendering digit lists (all entries `< 10`) as characters is
injective. -/
theorem map_digitToChar_inj :
    ∀ (l1 l2 : List Nat), (∀ d ∈ l1, d < 10) → (∀ d ∈ l2, d < 10) →
      l1.map digitToChar = l2.map digitToChar → l1 = l2
  | [], [], _, _, _ => rfl
  | [], _ :: _, _, _, h => by simp at h
  | _ :: _, [], _, _, h => by simp at h
  | a :: l1, b :: l2, h1, h2, h => by
    simp only [List.map_cons, List.cons.injEq] at h
    have hab : a = b :=
      digitToChar_inj a (h1 a (List.mem_cons_self ..))
        b (h2 b (List.mem_cons_self ..)) h.1
    rw [hab, map_digitToChar_inj l1 l2
          (fun d hd => h1 d (List.mem_cons_of_mem _ hd))
          (fun d hd => h2 d (List.mem_cons_of_mem _ hd)) h.2]

/-- The decimal rendering is injective on positive numbers. -/
theorem natDecStr_inj (m n : Nat) (hm : 0 < m) (hn : 0 < n)
    (h : natDecStr m = natDecStr n) : m = n := by
  unfold natDecStr at h
  have hm0 : (m == 0) = false := by simp; omega
  have hn0 : (n == 0) = false := by simp; omega
  rw [hm0, hn0] at h
  simp only [Bool.false_eq_true, if_false] at h
  have hdata := congrArg String.data h
  simp only at hdata
  have hdig : ∀ k, ∀ d ∈ (decDigits k).reverse, d < 10 := by
    intro k d hd
    rw [List.mem_reverse, decDigits_eq_digits] at hd
    exact Nat.digits_lt_base (by norm_num) hd
  have hrev := map_digitToChar_inj _ _ (hdig m) (hdig n) hdata
  have := List.reverse_injective hrev
  rw [decDigits_eq_digits, decDigits_eq_digits] at this
  exact Nat.digits_inj_iff.mp this

/-- Correlation-id strings for distinct positive counter values are
distinct. -/
theorem tcId_inj (m n : Nat) (hm : 0 < m) (hn : 0 < n)
    (h : tcId m = tcId n) : m = n := by
  unfold tcId at h
  have hdata := congrArg String.data h
  simp only [String.data_append] at hdata
  exact natDecStr_inj m n hm hn (String.ext (List.append_cancel_left hdata))

/-- The counter values issued over a script are strictly increasing and all
exceed the starting counter value. -/
theorem issuedNums_sorted :
    ∀ (ops : List ClientOp) (c : Nat),
      (issuedNums c ops).Pairwise (· < ·) ∧
      ∀ x ∈ issuedNums c ops, c < x
  | [], c => ⟨List.Pairwise.nil, by simp [issuedNums]⟩
  | .single :: rest, c => by
    have ih := issuedNums_sorted rest (c + 1)
    unfold issuedNums opIds
    simp only [List.singleton_append]
    constructor
    · rw [List.pairwise_cons]
      exact ⟨fun x hx => ih.2 x hx, ih.1⟩
    · intro x hx
      rcases List.mem_cons.mp hx with rfl | hx
      · omega
      · have := ih.2 x hx
        omega
  | .batch k :: rest, c => by
    have ih := issuedNums_sorted rest (c + k)
    unfold issuedNums opIds
    simp only
    constructor
    · rw [List.pairwise_append]
      refine ⟨?_, ih.1, ?_⟩
      · exact (List.pairwise_lt_range k).map _ (fun a b hab => by omega)
      · intro x hx y hy
        obtain ⟨j, hj, rfl⟩ := List.mem_map.mp hx
        have hjk := List.mem_range.mp hj
        have := ih.2 y hy
        omega
    · intro x hx
      rcases List.mem_append.mp hx with hx | hx
      · obtain ⟨j, _, rfl⟩ := List.mem_map.mp hx
        omega
      · have := ih.2 x hx
        omega

/-- Rendering a strictly increasing list of positive counter values as
correlation ids yields a duplicate-free list. -/
theorem nodup_map_tcId :
    ∀ (l : List Nat), l.Pairwise (· < ·) → (∀ x ∈ l, 0 < x) →
      (l.map tcId).Nodup
  | [], _, _ => List.nodup_nil
  | a :: l, hpw, hpos => by
    rw [List.map_cons, List.nodup_cons]
    have hcons := List.pairwise_cons.mp hpw
    constructor
    · intro hmem
      obtain ⟨b, hb, hba⟩ := List.mem_map.mp hmem
      have hab : a = b :=
        tcId_inj a b (hpos a (List.mem_cons_self ..))
          (hpos b (List.mem_cons_of_mem _ hb)) hba.symm
      exact absurd (hab ▸ hcons.1 b hb) (lt_irrefl a)
    · exact nodup_map_tcId l hcons.2
        (fun x hx => hpos x (List.mem_cons_of_mem _ hx))

/-- C10: the pipe variant draws correlation ids from one counter shared by
`call_tool` and `call_tools_parallel`, incremented before each id is
issued, so the ids issued over a whole script execution — across all single
and batched calls — are pairwise distinct; e.g. a single call, then a batch
of two, then another single call issue `tc_1 … tc_4` consecutively. -/
theorem correlation_ids_unique :
    (∀ ops, (issuedIds ops).Nodup) ∧
    issuedIds [.single, .batch 2, .single]
      = ["tc_1", "tc_2", "tc_3", "tc_4"] := by
  constructor
  · intro ops
    unfold issuedIds
    have h := issuedNums_sorted ops 0
    exact nodup_map_tcId (issuedNums 0 ops) h.1 h.2
  · rfl

end Oasis
